import Mathlib

/-!
# Spatial grid indexing subsystem — shallow embedding and verification

This file embeds the grid-index component (`GridManager` in `grid_name.py`)
of the stadium Map-Service and proves the specification claims about it.

Modelling conventions:
* Python `float` coordinates are modelled by exact rationals (`ℚ`); the
  grid math (`math.floor` of a quotient, linear bound arithmetic) is the
  real-number algorithm the code implements.
* Python `str` values used as delimited id containers are modelled by
  `List Char`, so that `",".join` / `.split(",")` become
  `List.intercalate` / `List.splitOn` with their algebraic theory.
* A SQLAlchemy session is modelled by an explicit store `DB` holding the
  `nodes` and `tiles` tables; `query(...).first()` is `List.find?`,
  in-place ORM mutation followed by `commit` is a functional update of the
  tile list, `query(Tile).delete()` replaces the tile table.
-/

namespace MapService

/-- Python strings (used for ids and the comma-joined membership fields)
are modelled as their character sequences. -/
abbrev Str := List Char

/-- `grid_name.GridManager.__init__`: stores the three configuration
parameters; the constructor performs no validation whatsoever. -/
structure GridManager where
  cell_size : ℚ
  origin_x : ℚ
  origin_y : ℚ
deriving DecidableEq, Repr

/-- `GridManager(cell_size, origin_x, origin_y)` — the constructor body is
three attribute assignments and nothing else. -/
def initGridManager (cell_size origin_x origin_y : ℚ) : GridManager :=
  { cell_size := cell_size, origin_x := origin_x, origin_y := origin_y }

/-- `GridManager.get_cell_coords`: floored division of the
origin-relative position by the cell size, per axis. -/
def GridManager.get_cell_coords (gm : GridManager) (x y : ℚ) : Int × Int :=
  (⌊(x - gm.origin_x) / gm.cell_size⌋, ⌊(y - gm.origin_y) / gm.cell_size⌋)

/-- `GridManager.get_cell_bounds`: the bounding rectangle of a cell,
`(min_x, max_x, min_y, max_y)`. -/
def GridManager.get_cell_bounds (gm : GridManager) (grid_x grid_y : Int) :
    ℚ × ℚ × ℚ × ℚ :=
  let min_x := gm.origin_x + grid_x * gm.cell_size
  let max_x := min_x + gm.cell_size
  let min_y := gm.origin_y + grid_y * gm.cell_size
  let max_y := min_y + gm.cell_size
  (min_x, max_x, min_y, max_y)

/-- A row of the `nodes` table (`models.Node`): the fields the grid index
reads (`id`, `x`, `y`, `level`, `type`). -/
structure Node where
  id : Str
  x : ℚ
  y : ℚ
  level : Int
  type : String
deriving DecidableEq, Repr

/-- A row of the `tiles` table (`models.Tile`).  The four membership
fields are nullable comma-joined strings (`node_id`, `poi_id`, `seat_id`,
`gate_id`). -/
structure Tile where
  id : Str
  grid_x : Int
  grid_y : Int
  level : Int
  min_x : ℚ
  max_x : ℚ
  min_y : ℚ
  max_y : ℚ
  walkable : Bool
  node_id : Option Str
  poi_id : Option Str
  seat_id : Option Str
  gate_id : Option Str
deriving DecidableEq, Repr

/-- The entity store: the two tables the grid index touches. -/
structure DB where
  nodes : List Node
  tiles : List Tile
deriving DecidableEq, Repr

/-- The decimal rendering of an integer, as used inside Python f-strings
(`f"tile_{grid_x}_{grid_y}_{level}"` renders each int in decimal with a
leading `-` when negative, exactly as Lean's `toString`). -/
def intStr (i : Int) : Str := (toString i).data

/-- The composite tile identity `f"tile_{grid_x}_{grid_y}_{level}"`. -/
def tileIdStr (grid_x grid_y level : Int) : Str :=
  "tile_".data ++ intStr grid_x ++ "_".data ++ intStr grid_y ++ "_".data ++ intStr level

/-- `db.query(Tile).filter(Tile.id == tile_id).first()`. -/
def findTile (tiles : List Tile) (tid : Str) : Option Tile :=
  tiles.find? (fun t => t.id = tid)

/-- Python's `current or ""` applied to a nullable string: `None` becomes
`""`; an empty string stays empty. -/
def orEmpty (s : Option Str) : Str := s.getD []

/-- `[i for i in (s or "").split(",") if i]` — split a nullable
comma-joined field and drop empty fragments. -/
def splitIds (s : Option Str) : List Str :=
  ((orEmpty s).splitOn ',').filter (fun i => i ≠ [])

/-- `GridManager._append_id`: re-split the current field, append the new
id only when not already present, and re-join with commas. -/
def append_id (current : Option Str) (new_id : Str) : Str :=
  let ids := splitIds current
  let ids := if new_id ∈ ids then ids else ids ++ [new_id]
  [','].intercalate ids

/-- A freshly created tile row for cell `(gx, gy)` at `level`: composite
id, the cell's computed bounds, `walkable=True`, and all four membership
fields set to `seed` — `get_or_create_tile` seeds them with `None`
(lines 42–45 of `grid_name.py`), `rebuild_grid` with `""` (lines
144–147). -/
def GridManager.newTileRow (gm : GridManager) (gx gy level : Int)
    (seed : Option Str) : Tile :=
  let b := gm.get_cell_bounds gx gy
  { id := tileIdStr gx gy level
    grid_x := gx
    grid_y := gy
    level := level
    min_x := b.1
    max_x := b.2.1
    min_y := b.2.2.1
    max_y := b.2.2.2
    walkable := true
    node_id := seed
    poi_id := seed
    seat_id := seed
    gate_id := seed }

/-- `GridManager.get_or_create_tile`: look the tile up by its composite
id; if present return it (store unchanged), otherwise create it with the
computed bounds, `walkable=True` and all four membership fields `NULL`,
persist it, and return it. -/
def GridManager.get_or_create_tile (gm : GridManager) (db : DB) (x y : ℚ)
    (level : Int) : DB × Tile :=
  let gc := gm.get_cell_coords x y
  let tile_id := tileIdStr gc.1 gc.2 level
  match findTile db.tiles tile_id with
  | some tile => (db, tile)
  | none =>
    let tile := gm.newTileRow gc.1 gc.2 level none
    ({ db with tiles := db.tiles ++ [tile] }, tile)

/-- The field update performed by `assign_entity_to_cell` on the owning
tile: each branch requires both the matching category tag and a provided
entity object (`entity_obj` truthy, i.e. not `None`); otherwise the tile
is left unchanged.  `entity_obj` is represented by its `id`. -/
def assignUpdate (tile : Tile) (entity_type : String) (entity_obj : Option Str) :
    Tile :=
  match entity_obj with
  | none => tile
  | some eid =>
    if entity_type = "node" then
      { tile with node_id := some (append_id tile.node_id eid) }
    else if entity_type = "poi" then
      { tile with poi_id := some (append_id tile.poi_id eid) }
    else if entity_type = "seat" then
      { tile with seat_id := some (append_id tile.seat_id eid) }
    else if entity_type = "gate" then
      { tile with gate_id := some (append_id tile.gate_id eid) }
    else tile

/-- `GridManager.assign_entity_to_cell`: get-or-create the owning tile,
append the entity id to the field matching `entity_type`, and commit the
mutated tile. -/
def GridManager.assign_entity_to_cell (gm : GridManager) (db : DB) (x y : ℚ)
    (level : Int) (entity_type : String) (entity_obj : Option Str) : DB × Tile :=
  let r := gm.get_or_create_tile db x y level
  let tile := assignUpdate r.2 entity_type entity_obj
  ({ r.1 with tiles := r.1.tiles.map (fun u => if u.id = r.2.id then tile else u) },
   tile)

/-- The result shape of `get_entities_in_cell`. -/
structure CellEntities where
  nodes : List Node
  pois : List Node
  seats : List Node
  gates : List Node
  tile : Option Tile
deriving DecidableEq, Repr

/-- The populated branch of `get_entities_in_cell`: split the four
membership fields (`fetch_ids`), resolve the union of the ids against the
`nodes` table in one batch (`Node.id.in_(all_ids)`, skipped when the union
is empty), build the id-keyed lookup dict (later rows overwrite earlier
ones, as in a Python dict comprehension), and keep, per category, the ids
that resolved; ids that do not resolve are dropped. -/
def resolveTile (db : DB) (tile : Tile) : CellEntities :=
  let node_ids := splitIds tile.node_id
  let poi_ids := splitIds tile.poi_id
  let seat_ids := splitIds tile.seat_id
  let gate_ids := splitIds tile.gate_id
  let all_ids := node_ids ++ poi_ids ++ seat_ids ++ gate_ids
  let all_nodes :=
    if all_ids = [] then [] else db.nodes.filter (fun n => n.id ∈ all_ids)
  let lookup : Str → Option Node :=
    fun nid => all_nodes.reverse.find? (fun n => n.id = nid)
  { nodes := node_ids.filterMap lookup
    pois := poi_ids.filterMap lookup
    seats := seat_ids.filterMap lookup
    gates := gate_ids.filterMap lookup
    tile := some tile }

/-- `GridManager.get_entities_in_cell`: look the tile up by composite id;
when absent return empty category lists and a null tile (not an error),
otherwise resolve the tile's membership lists via `resolveTile`. -/
def get_entities_in_cell (db : DB) (grid_x grid_y level : Int) : CellEntities :=
  let tile_id := tileIdStr grid_x grid_y level
  match findTile db.tiles tile_id with
  | none => { nodes := [], pois := [], seats := [], gates := [], tile := none }
  | some tile => resolveTile db tile

/-- The closed set of POI type tags recognised by `rebuild_grid`. -/
def poi_types : List String :=
  ["restroom", "food", "bar", "merchandise", "first_aid",
   "emergency_exit", "information", "vip_box"]

/-- The categorisation step of `rebuild_grid` for one node: the id always
goes to `node_id`; additionally to `gate_id` / `seat_id` / `poi_id` when
the node's type is `"gate"`, `"seat"`, or in `poi_types` (in that
precedence order). -/
def categorize (tile : Tile) (node : Node) : Tile :=
  let t := { tile with node_id := some (append_id tile.node_id node.id) }
  if node.type = "gate" then
    { t with gate_id := some (append_id t.gate_id node.id) }
  else if node.type = "seat" then
    { t with seat_id := some (append_id t.seat_id node.id) }
  else if node.type ∈ poi_types then
    { t with poi_id := some (append_id t.poi_id node.id) }
  else t

/-- One iteration of the `rebuild_grid` loop: materialise the node's tile
in the cache when absent (with computed bounds, `walkable=True` and all
four fields `""`), then apply the categorised appends to it. -/
def GridManager.rebuildStep (gm : GridManager) (cache : List Tile) (node : Node) :
    List Tile :=
  let gc := gm.get_cell_coords node.x node.y
  let tile_id := tileIdStr gc.1 gc.2 node.level
  let cache :=
    match findTile cache tile_id with
    | some _ => cache
    | none => cache ++ [gm.newTileRow gc.1 gc.2 node.level (some [])]
  cache.map (fun t => if t.id = tile_id then categorize t node else t)

/-- `GridManager.rebuild_grid`: drop every existing tile, fold the whole
`nodes` table through `rebuildStep` building the tile cache in memory,
bulk-insert the cache as the new tile table, and return the number of
tiles built. -/
def GridManager.rebuild_grid (gm : GridManager) (db : DB) : DB × Nat :=
  let cache := db.nodes.foldl gm.rebuildStep []
  ({ db with tiles := cache }, cache.length)

/-! ### Derived views of a tile's membership fields -/

/-- The generic membership list of a tile, as read back from its
comma-joined `node_id` field. -/
def nodeList (t : Tile) : List Str := splitIds t.node_id

/-- The POI membership list of a tile. -/
def poiList (t : Tile) : List Str := splitIds t.poi_id

/-- The seat membership list of a tile. -/
def seatList (t : Tile) : List Str := splitIds t.seat_id

/-- The gate membership list of a tile. -/
def gateList (t : Tile) : List Str := splitIds t.gate_id

/-- The membership field of a tile addressed by an `assign_entity_to_cell`
category tag. -/
def categoryField (entity_type : String) (t : Tile) : Option Str :=
  if entity_type = "node" then t.node_id
  else if entity_type = "poi" then t.poi_id
  else if entity_type = "seat" then t.seat_id
  else if entity_type = "gate" then t.gate_id
  else none

/-- The tile id an entity hashes to: its cell coordinates plus level. -/
def tileIdOf (gm : GridManager) (n : Node) : Str :=
  tileIdStr (gm.get_cell_coords n.x n.y).1 (gm.get_cell_coords n.x n.y).2 n.level

/-- A well-formed entity id: non-empty and containing no comma, so that it
survives the comma-joined storage encoding intact. -/
def goodId (i : Str) : Prop := i ≠ [] ∧ ',' ∉ i

instance (i : Str) : Decidable (goodId i) :=
  inferInstanceAs (Decidable (i ≠ [] ∧ ',' ∉ i))

/-! ### Lemmas about the comma-joined encoding -/

theorem splitOnP_sep_free {α : Type*} (p : α → Bool) (xs : List α) :
    ∀ l ∈ xs.splitOnP p, ∀ a ∈ l, ¬p a = true := by
  induction xs with
  | nil =>
    intro l hl a ha
    simp only [List.splitOnP_nil, List.mem_singleton] at hl
    subst hl
    simp at ha
  | cons x xs ih =>
    intro l hl a ha
    rw [List.splitOnP_cons] at hl
    by_cases hx : p x
    · rw [if_pos hx] at hl
      rcases List.mem_cons.mp hl with h | h
      · subst h; simp at ha
      · exact ih l h a ha
    · rw [if_neg hx] at hl
      rcases h' : xs.splitOnP p with _ | ⟨hd, tl⟩
      · exact absurd h' (List.splitOnP_ne_nil p xs)
      · rw [h'] at hl
        simp only [List.modifyHead] at hl
        rcases List.mem_cons.mp hl with h | h
        · subst h
          rcases List.mem_cons.mp ha with rfl | ha'
          · exact hx
          · exact ih hd (h' ▸ List.mem_cons_self hd tl) a ha'
        · exact ih l (h' ▸ List.mem_cons_of_mem hd h) a ha

theorem splitIds_sep_free (s : Option Str) :
    ∀ i ∈ splitIds s, i ≠ [] ∧ ',' ∉ i := by
  intro i hi
  unfold splitIds at hi
  rw [List.mem_filter] at hi
  refine ⟨by simpa using hi.2, fun hc => ?_⟩
  have := splitOnP_sep_free (· == ',') (orEmpty s) i hi.1 ',' hc
  simp at this

theorem splitIds_filter_self (s : Option Str) :
    (splitIds s).filter (fun i => i ≠ []) = splitIds s := by
  apply List.filter_eq_self.mpr
  intro i hi
  simpa using (splitIds_sep_free s i hi).1

theorem splitIds_none : splitIds none = [] := rfl

theorem splitIds_some_nil : splitIds (some []) = [] := rfl

theorem splitIds_single (i : Str) (h1 : i ≠ []) (h2 : ',' ∉ i) :
    splitIds (some i) = [i] := by
  unfold splitIds orEmpty
  have : i.splitOn ',' = [i] := by
    apply List.splitOnP_eq_single
    intro x hx h
    exact h2 (by simpa using (beq_iff_eq.mp h ▸ hx))
  rw [Option.getD_some, this]
  simp [h1]

theorem splitIds_intercalate (L : List Str) (hL : ∀ l ∈ L, ',' ∉ l) :
    splitIds (some ([','].intercalate L)) = L.filter (fun i => i ≠ []) := by
  cases L with
  | nil => rfl
  | cons a L' =>
    unfold splitIds orEmpty
    rw [Option.getD_some, List.splitOn_intercalate _ ',' hL (by simp)]

theorem splitIds_intercalate_append (L : List Str) (i : Str)
    (hL : ∀ l ∈ L, ',' ∉ l) :
    splitIds (some ([','].intercalate (L ++ [i]))) =
      L.filter (fun j => j ≠ []) ++ splitIds (some i) := by
  induction L with
  | nil => simp [List.intercalate]
  | cons a L' ih =>
    have ha : ',' ∉ a := hL a (List.mem_cons_self a L')
    have hL' : ∀ l ∈ L', ',' ∉ l := fun l hl => hL l (List.mem_cons_of_mem a hl)
    have hcons : [','].intercalate ((a :: L') ++ [i]) =
        a ++ ',' :: [','].intercalate (L' ++ [i]) := by
      cases L' <;> simp [List.intercalate]
    have hsplit : (a ++ ',' :: [','].intercalate (L' ++ [i])).splitOn ',' =
        a :: ([','].intercalate (L' ++ [i])).splitOn ',' := by
      apply List.splitOnP_first
      · intro x hx h
        exact ha (by simpa using (beq_iff_eq.mp h ▸ hx))
      · simp
    have ihe := ih hL'
    unfold splitIds orEmpty at ihe ⊢
    rw [Option.getD_some, hcons, hsplit, List.filter_cons]
    rw [Option.getD_some] at ihe
    rw [ihe, List.filter_cons]
    by_cases hna : a = [] <;> simp [hna]

theorem splitIds_append_id (cur : Option Str) (i : Str) :
    splitIds (some (append_id cur i)) =
      if i ∈ splitIds cur then splitIds cur
      else splitIds cur ++ splitIds (some i) := by
  have hfree : ∀ l ∈ splitIds cur, ',' ∉ l :=
    fun l hl => (splitIds_sep_free cur l hl).2
  unfold append_id
  by_cases h : i ∈ splitIds cur
  · simp only [if_pos h]
    rw [splitIds_intercalate _ hfree, splitIds_filter_self]
  · simp only [if_neg h]
    rw [splitIds_intercalate_append _ _ hfree, splitIds_filter_self]

theorem splitIds_append_id_not_mem (cur : Option Str) (i : Str)
    (h1 : i ≠ []) (h2 : ',' ∉ i) (h : i ∉ splitIds cur) :
    splitIds (some (append_id cur i)) = splitIds cur ++ [i] := by
  rw [splitIds_append_id, if_neg h, splitIds_single i h1 h2]

theorem append_id_idem (cur : Option Str) (i : Str) (h2 : ',' ∉ i) :
    append_id (some (append_id cur i)) i = append_id cur i := by
  by_cases hmem : i ∈ splitIds cur
  · have hs : splitIds (some (append_id cur i)) = splitIds cur := by
      rw [splitIds_append_id, if_pos hmem]
    conv_lhs => rw [append_id, hs, if_pos hmem]
    rw [append_id, if_pos hmem]
  · by_cases h1 : i = []
    · subst h1
      have hs : splitIds (some (append_id cur [])) = splitIds cur := by
        rw [splitIds_append_id, if_neg hmem, splitIds_some_nil, List.append_nil]
      conv_lhs => rw [append_id, hs, if_neg hmem]
      rw [append_id, if_neg hmem]
    · have hs : splitIds (some (append_id cur i)) = splitIds cur ++ [i] := by
        rw [splitIds_append_id, if_neg hmem, splitIds_single i h1 h2]
      have hin : i ∈ splitIds cur ++ [i] := by simp
      conv_lhs => rw [append_id, hs, if_pos hin]
      rw [append_id, if_neg hmem]

/-! ### Structural lemmas about tile updates and lookup -/

theorem assignUpdate_id (t : Tile) (et : String) (eo : Option Str) :
    (assignUpdate t et eo).id = t.id := by
  unfold assignUpdate
  rcases eo with _ | eid
  · rfl
  · split_ifs <;> rfl

theorem categorize_skeleton (t : Tile) (n : Node) :
    (categorize t n).id = t.id ∧ (categorize t n).grid_x = t.grid_x ∧
    (categorize t n).grid_y = t.grid_y ∧ (categorize t n).level = t.level ∧
    (categorize t n).min_x = t.min_x ∧ (categorize t n).max_x = t.max_x ∧
    (categorize t n).min_y = t.min_y ∧ (categorize t n).max_y = t.max_y ∧
    (categorize t n).walkable = t.walkable := by
  unfold categorize
  split_ifs <;> exact ⟨rfl, rfl, rfl, rfl, rfl, rfl, rfl, rfl, rfl⟩

theorem gate_not_poi_type : "gate" ∉ poi_types := by decide

theorem seat_not_poi_type : "seat" ∉ poi_types := by decide

theorem categorize_lists (t : Tile) (n : Node) (hg : goodId n.id)
    (h1 : n.id ∉ nodeList t) (h2 : n.id ∉ gateList t)
    (h3 : n.id ∉ seatList t) (h4 : n.id ∉ poiList t) :
    nodeList (categorize t n) = nodeList t ++ [n.id] ∧
    gateList (categorize t n) =
      gateList t ++ (if n.type = "gate" then [n.id] else []) ∧
    seatList (categorize t n) =
      seatList t ++ (if n.type = "seat" then [n.id] else []) ∧
    poiList (categorize t n) =
      poiList t ++ (if n.type ∈ poi_types then [n.id] else []) := by
  obtain ⟨hne, hnc⟩ := hg
  unfold categorize
  by_cases hgate : n.type = "gate"
  · rw [if_pos hgate]
    have hseat : ¬n.type = "seat" := by rw [hgate]; decide
    have hpoi : ¬n.type ∈ poi_types := by rw [hgate]; exact gate_not_poi_type
    refine ⟨?_, ?_, ?_, ?_⟩
    · show splitIds (some (append_id t.node_id n.id)) = _
      rw [splitIds_append_id_not_mem t.node_id n.id hne hnc h1]; rfl
    · show splitIds (some (append_id t.gate_id n.id)) = _
      rw [splitIds_append_id_not_mem t.gate_id n.id hne hnc h2, if_pos hgate]; rfl
    · show splitIds t.seat_id = _
      rw [if_neg hseat, List.append_nil]; rfl
    · show splitIds t.poi_id = _
      rw [if_neg hpoi, List.append_nil]; rfl
  · rw [if_neg hgate]
    by_cases hseat : n.type = "seat"
    · rw [if_pos hseat]
      have hpoi : ¬n.type ∈ poi_types := by rw [hseat]; exact seat_not_poi_type
      refine ⟨?_, ?_, ?_, ?_⟩
      · show splitIds (some (append_id t.node_id n.id)) = _
        rw [splitIds_append_id_not_mem t.node_id n.id hne hnc h1]; rfl
      · show splitIds t.gate_id = _
        rw [if_neg hgate, List.append_nil]; rfl
      · show splitIds (some (append_id t.seat_id n.id)) = _
        rw [splitIds_append_id_not_mem t.seat_id n.id hne hnc h3, if_pos hseat]; rfl
      · show splitIds t.poi_id = _
        rw [if_neg hpoi, List.append_nil]; rfl
    · rw [if_neg hseat]
      by_cases hpoi : n.type ∈ poi_types
      · rw [if_pos hpoi]
        refine ⟨?_, ?_, ?_, ?_⟩
        · show splitIds (some (append_id t.node_id n.id)) = _
          rw [splitIds_append_id_not_mem t.node_id n.id hne hnc h1]; rfl
        · show splitIds t.gate_id = _
          rw [if_neg hgate, List.append_nil]; rfl
        · show splitIds t.seat_id = _
          rw [if_neg hseat, List.append_nil]; rfl
        · show splitIds (some (append_id t.poi_id n.id)) = _
          rw [splitIds_append_id_not_mem t.poi_id n.id hne hnc h4, if_pos hpoi]; rfl
      · rw [if_neg hpoi]
        refine ⟨?_, ?_, ?_, ?_⟩
        · show splitIds (some (append_id t.node_id n.id)) = _
          rw [splitIds_append_id_not_mem t.node_id n.id hne hnc h1]; rfl
        · show splitIds t.gate_id = _
          rw [if_neg hgate, List.append_nil]; rfl
        · show splitIds t.seat_id = _
          rw [if_neg hseat, List.append_nil]; rfl
        · show splitIds t.poi_id = _
          rw [if_neg hpoi, List.append_nil]; rfl

theorem findTile_update (l : List Tile) (tid : Str) (new : Tile)
    (hnew : new.id = tid) (h : (findTile l tid).isSome = true) :
    findTile (l.map (fun u => if u.id = tid then new else u)) tid = some new := by
  induction l with
  | nil => simp [findTile] at h
  | cons u l ih =>
    by_cases hu : u.id = tid
    · simp [findTile, List.find?, hu, hnew]
    · have h' : (findTile l tid).isSome = true := by
        simpa [findTile, List.find?, hu] using h
      have := ih h'
      simpa [findTile, List.find?, hu] using this

theorem mem_update_of_id (l : List Tile) (tid : Str) (new : Tile) :
    ∀ u ∈ l.map (fun u => if u.id = tid then new else u), u.id = tid → u = new := by
  intro u hu hid
  rcases List.mem_map.mp hu with ⟨v, _, rfl⟩
  by_cases h : v.id = tid
  · simp [h]
  · rw [if_neg h] at hid ⊢
    exact absurd hid h

/-! ### The rebuild invariant -/

/-- The invariant maintained by the `rebuild_grid` loop over the tile
cache, relative to the prefix `P` of nodes already processed (all node
ids are assumed well-formed and pairwise distinct): tiles have distinct
ids; every tile carries its composite id, its computed bounds, and
`walkable=True`; tiles correspond exactly to the cells of processed
nodes; and each membership list holds, in processing order, exactly the
ids of the processed nodes of that tile (all of them in `nodeList`, and
the gate/seat/POI ones in their category list). -/
def RebuildInv (gm : GridManager) (P : List Node) (cache : List Tile) : Prop :=
  (cache.map Tile.id).Nodup ∧
  (∀ t ∈ cache,
    t.id = tileIdStr t.grid_x t.grid_y t.level ∧
    (t.min_x, t.max_x, t.min_y, t.max_y) = gm.get_cell_bounds t.grid_x t.grid_y ∧
    t.walkable = true) ∧
  (∀ t ∈ cache, ∃ n ∈ P, tileIdOf gm n = t.id) ∧
  (∀ n ∈ P, ∃ t ∈ cache, t.id = tileIdOf gm n) ∧
  (∀ t ∈ cache,
    nodeList t = (P.filter (fun n => tileIdOf gm n = t.id)).map Node.id ∧
    gateList t =
      (P.filter (fun n => tileIdOf gm n = t.id ∧ n.type = "gate")).map Node.id ∧
    seatList t =
      (P.filter (fun n => tileIdOf gm n = t.id ∧ n.type = "seat")).map Node.id ∧
    poiList t =
      (P.filter (fun n => tileIdOf gm n = t.id ∧ n.type ∈ poi_types)).map Node.id)

theorem not_mem_mapped_filter (P : List Node) (f : Node → Bool) (i : Str)
    (h : i ∉ P.map Node.id) : i ∉ (P.filter f).map Node.id := by
  intro hmem
  rcases List.mem_map.mp hmem with ⟨m, hm, rfl⟩
  exact h (List.mem_map.mpr ⟨m, List.mem_of_mem_filter hm, rfl⟩)

theorem update_phase (gm : GridManager) (P : List Node) (n : Node)
    (cache1 : List Tile) (hgood : goodId n.id) (hfresh : n.id ∉ P.map Node.id)
    (hnd : (cache1.map Tile.id).Nodup)
    (hbounds : ∀ t ∈ cache1,
      t.id = tileIdStr t.grid_x t.grid_y t.level ∧
      (t.min_x, t.max_x, t.min_y, t.max_y) = gm.get_cell_bounds t.grid_x t.grid_y ∧
      t.walkable = true)
    (hsurj : ∀ t ∈ cache1, (∃ m ∈ P, tileIdOf gm m = t.id) ∨ t.id = tileIdOf gm n)
    (htot : ∀ m ∈ P, ∃ t ∈ cache1, t.id = tileIdOf gm m)
    (hex : ∃ t ∈ cache1, t.id = tileIdOf gm n)
    (hlists : ∀ t ∈ cache1,
      nodeList t = (P.filter (fun m => tileIdOf gm m = t.id)).map Node.id ∧
      gateList t =
        (P.filter (fun m => tileIdOf gm m = t.id ∧ m.type = "gate")).map Node.id ∧
      seatList t =
        (P.filter (fun m => tileIdOf gm m = t.id ∧ m.type = "seat")).map Node.id ∧
      poiList t =
        (P.filter (fun m => tileIdOf gm m = t.id ∧ m.type ∈ poi_types)).map Node.id) :
    RebuildInv gm (P ++ [n])
      (cache1.map (fun t => if t.id = tileIdOf gm n then categorize t n else t)) := by
  set upd : Tile → Tile :=
    fun t => if t.id = tileIdOf gm n then categorize t n else t with hupd
  have hupd_eq : ∀ t : Tile,
      upd t = if t.id = tileIdOf gm n then categorize t n else t :=
    fun t => rfl
  have hupd_id : ∀ t : Tile, (upd t).id = t.id := by
    intro t
    rw [hupd_eq t]
    by_cases h : t.id = tileIdOf gm n
    · rw [if_pos h]; exact (categorize_skeleton t n).1
    · rw [if_neg h]
  refine ⟨?_, ?_, ?_, ?_, ?_⟩
  · have : (cache1.map upd).map Tile.id = cache1.map Tile.id := by
      rw [List.map_map]
      exact List.map_congr_left fun t _ => hupd_id t
    rw [this]
    exact hnd
  · intro t' ht'
    rcases List.mem_map.mp ht' with ⟨t, ht, rfl⟩
    obtain ⟨hb1, hb2, hb3⟩ := hbounds t ht
    rw [hupd_eq t]
    by_cases h : t.id = tileIdOf gm n
    · rw [if_pos h]
      obtain ⟨s1, s2, s3, s4, s5, s6, s7, s8, s9⟩ := categorize_skeleton t n
      rw [s1, s2, s3, s4, s5, s6, s7, s8, s9]
      exact ⟨hb1, hb2, hb3⟩
    · rw [if_neg h]
      exact ⟨hb1, hb2, hb3⟩
  · intro t' ht'
    rcases List.mem_map.mp ht' with ⟨t, ht, rfl⟩
    rw [hupd_id t]
    rcases hsurj t ht with ⟨m, hm, hmeq⟩ | heq
    · exact ⟨m, List.mem_append_left _ hm, hmeq⟩
    · exact ⟨n, List.mem_append_right _ (List.mem_singleton_self n), heq.symm⟩
  · intro m hm
    rcases List.mem_append.mp hm with hmP | hmn
    · rcases htot m hmP with ⟨t, ht, hteq⟩
      exact ⟨upd t, List.mem_map.mpr ⟨t, ht, rfl⟩, by rw [hupd_id t]; exact hteq⟩
    · rcases hex with ⟨t, ht, hteq⟩
      rw [List.mem_singleton.mp hmn]
      exact ⟨upd t, List.mem_map.mpr ⟨t, ht, rfl⟩, by rw [hupd_id t]; exact hteq⟩
  · intro t' ht'
    rcases List.mem_map.mp ht' with ⟨t, ht, rfl⟩
    obtain ⟨e1, e2, e3, e4⟩ := hlists t ht
    rw [hupd_eq t]
    by_cases h : t.id = tileIdOf gm n
    · rw [if_pos h]
      have hc : tileIdOf gm n = t.id := h.symm
      obtain ⟨c1, c2, c3, c4⟩ :=
        categorize_lists t n hgood
          (e1 ▸ not_mem_mapped_filter P _ n.id hfresh)
          (e2 ▸ not_mem_mapped_filter P _ n.id hfresh)
          (e3 ▸ not_mem_mapped_filter P _ n.id hfresh)
          (e4 ▸ not_mem_mapped_filter P _ n.id hfresh)
      have hid' : (categorize t n).id = t.id := (categorize_skeleton t n).1
      rw [hid']
      refine ⟨?_, ?_, ?_, ?_⟩
      · rw [c1, e1, List.filter_append, List.map_append]
        congr 1
        simp [List.filter_cons, hc]
      · rw [c2, e2, List.filter_append, List.map_append]
        congr 1
        by_cases hg : n.type = "gate" <;> simp [List.filter_cons, hc, hg]
      · rw [c3, e3, List.filter_append, List.map_append]
        congr 1
        by_cases hs : n.type = "seat" <;> simp [List.filter_cons, hc, hs]
      · rw [c4, e4, List.filter_append, List.map_append]
        congr 1
        by_cases hp : n.type ∈ poi_types <;> simp [List.filter_cons, hc, hp]
    · rw [if_neg h]
      have hc : ¬tileIdOf gm n = t.id := fun e => h e.symm
      refine ⟨?_, ?_, ?_, ?_⟩
      · rw [e1, List.filter_append]
        simp [List.filter_cons, hc]
      · rw [e2, List.filter_append]
        simp [List.filter_cons, hc]
      · rw [e3, List.filter_append]
        simp [List.filter_cons, hc]
      · rw [e4, List.filter_append]
        simp [List.filter_cons, hc]

theorem rebuildStep_eq (gm : GridManager) (cache : List Tile) (n : Node) :
    gm.rebuildStep cache n =
      ((match findTile cache (tileIdOf gm n) with
        | some _ => cache
        | none => cache ++ [gm.newTileRow (gm.get_cell_coords n.x n.y).1
            (gm.get_cell_coords n.x n.y).2 n.level (some [])] : List Tile)).map
        (fun t => if t.id = tileIdOf gm n then categorize t n else t) := rfl

theorem rebuildStep_inv (gm : GridManager) (P : List Node) (cache : List Tile)
    (n : Node) (hgood : goodId n.id) (hfresh : n.id ∉ P.map Node.id)
    (hinv : RebuildInv gm P cache) :
    RebuildInv gm (P ++ [n]) (gm.rebuildStep cache n) := by
  obtain ⟨hnd, hbounds, hsurj, htot, hlists⟩ := hinv
  rw [rebuildStep_eq]
  cases hft : findTile cache (tileIdOf gm n) with
  | some t0 =>
    have ht0mem : t0 ∈ cache := List.mem_of_find?_eq_some hft
    have ht0id : t0.id = tileIdOf gm n := by
      have := List.find?_some hft
      simpa using this
    exact update_phase gm P n cache hgood hfresh hnd hbounds
      (fun t ht => Or.inl (hsurj t ht)) htot ⟨t0, ht0mem, ht0id⟩ hlists
  | none =>
    have hnone : ∀ t ∈ cache, ¬(t.id = tileIdOf gm n) := by
      intro t ht
      have := List.find?_eq_none.mp hft t ht
      simpa using this
    set fresh := gm.newTileRow (gm.get_cell_coords n.x n.y).1
      (gm.get_cell_coords n.x n.y).2 n.level (some []) with hfr
    have hfr_id : fresh.id = tileIdOf gm n := rfl
    have hnomap : ∀ m ∈ P, ¬(tileIdOf gm m = tileIdOf gm n) := by
      intro m hm he
      rcases htot m hm with ⟨t, ht, hteq⟩
      exact hnone t ht (hteq.trans he)
    apply update_phase gm P n (cache ++ [fresh]) hgood hfresh
    · rw [List.map_append, List.nodup_append]
      refine ⟨hnd, by simp, ?_⟩
      intro a ha hb
      rcases List.mem_map.mp ha with ⟨t, ht, rfl⟩
      have : t.id = fresh.id := by simpa using hb
      exact hnone t ht (this.trans hfr_id)
    · intro t ht
      rcases List.mem_append.mp ht with h | h
      · exact hbounds t h
      · rw [List.mem_singleton.mp h]
        exact ⟨rfl, rfl, rfl⟩
    · intro t ht
      rcases List.mem_append.mp ht with h | h
      · exact Or.inl (hsurj t h)
      · exact Or.inr (by rw [List.mem_singleton.mp h]; exact hfr_id)
    · intro m hm
      rcases htot m hm with ⟨t, ht, hteq⟩
      exact ⟨t, List.mem_append_left _ ht, hteq⟩
    · exact ⟨fresh, List.mem_append_right _ (List.mem_singleton_self _), hfr_id⟩
    · intro t ht
      rcases List.mem_append.mp ht with h | h
      · exact hlists t h
      · rw [List.mem_singleton.mp h]
        have hemp : ∀ (g : Node → Bool),
            P.filter (fun m => decide (tileIdOf gm m = fresh.id) && g m) = [] := by
          intro g
          apply List.filter_eq_nil_iff.mpr
          intro m hm
          have := hnomap m hm
          simp [hfr_id, this]
        refine ⟨?_, ?_, ?_, ?_⟩
        · show splitIds (some []) = _
          rw [splitIds_some_nil]
          have : (P.filter (fun m => tileIdOf gm m = fresh.id)) = [] := by
            apply List.filter_eq_nil_iff.mpr
            intro m hm
            have := hnomap m hm
            simp [hfr_id, this]
          rw [this]
          rfl
        · show splitIds (some []) = _
          rw [splitIds_some_nil]
          have : (P.filter (fun m => tileIdOf gm m = fresh.id ∧ m.type = "gate")) = [] := by
            apply List.filter_eq_nil_iff.mpr
            intro m hm
            have := hnomap m hm
            simp [hfr_id, this]
          rw [this]
          rfl
        · show splitIds (some []) = _
          rw [splitIds_some_nil]
          have : (P.filter (fun m => tileIdOf gm m = fresh.id ∧ m.type = "seat")) = [] := by
            apply List.filter_eq_nil_iff.mpr
            intro m hm
            have := hnomap m hm
            simp [hfr_id, this]
          rw [this]
          rfl
        · show splitIds (some []) = _
          rw [splitIds_some_nil]
          have : (P.filter (fun m => tileIdOf gm m = fresh.id ∧ m.type ∈ poi_types)) = [] := by
            apply List.filter_eq_nil_iff.mpr
            intro m hm
            have := hnomap m hm
            simp [hfr_id, this]
          rw [this]
          rfl

theorem foldl_rebuild_inv (gm : GridManager) :
    ∀ (rest P : List Node) (cache : List Tile),
      (∀ n ∈ rest, goodId n.id) →
      ((P ++ rest).map Node.id).Nodup →
      RebuildInv gm P cache →
      RebuildInv gm (P ++ rest) (rest.foldl gm.rebuildStep cache) := by
  intro rest
  induction rest with
  | nil =>
    intro P cache _ _ h
    simpa using h
  | cons n rest ih =>
    intro P cache hgood hnd hinv
    have hfresh : n.id ∉ P.map Node.id := by
      rw [List.map_append, List.nodup_append] at hnd
      intro hmem
      exact hnd.2.2 hmem (by simp)
    have hstep := rebuildStep_inv gm P cache n
      (hgood n (List.mem_cons_self n rest)) hfresh hinv
    have hnd' : (((P ++ [n]) ++ rest).map Node.id).Nodup := by
      rw [List.append_assoc]
      simpa using hnd
    have := ih (P ++ [n]) (gm.rebuildStep cache n)
      (fun m hm => hgood m (List.mem_cons_of_mem n hm)) hnd' hstep
    rw [List.append_assoc] at this
    simpa using this

theorem rebuild_inv (gm : GridManager) (db : DB)
    (hgood : ∀ n ∈ db.nodes, goodId n.id)
    (hnd : (db.nodes.map Node.id).Nodup) :
    RebuildInv gm db.nodes (gm.rebuild_grid db).1.tiles ∧
    (gm.rebuild_grid db).1.nodes = db.nodes ∧
    (gm.rebuild_grid db).2 = (gm.rebuild_grid db).1.tiles.length := by
  have base : RebuildInv gm [] [] := by
    refine ⟨by simp, ?_, ?_, ?_, ?_⟩ <;> intro t ht <;> simp at ht
  have := foldl_rebuild_inv gm db.nodes [] [] hgood (by simpa using hnd) base
  exact ⟨by simpa using this, rfl, rfl⟩

/-! ### Concrete fixtures for examples, witnesses and counterexamples -/

/-- The grid configuration used throughout the spec's examples and in the
deployed service: `cell_size = 5`, origin `(0, 0)`. -/
def gmEx : GridManager := initGridManager 5 0 0

/-- An empty entity store. -/
def emptyDB : DB := { nodes := [], tiles := [] }

/-- The spec's rebuild scenario: 3 nodes of type `"seat"` and 2 of type
`"corridor"`, all in the same cell (cell `(0,0)` under `gmEx`), level 0. -/
def scenarioDB : DB :=
  { nodes :=
      [ { id := "s1".data, x := 1, y := 1, level := 0, type := "seat" }
      , { id := "s2".data, x := 2, y := 2, level := 0, type := "seat" }
      , { id := "s3".data, x := 3, y := 3, level := 0, type := "seat" }
      , { id := "c1".data, x := 1, y := 2, level := 0, type := "corridor" }
      , { id := "c2".data, x := 2, y := 1, level := 0, type := "corridor" } ]
    tiles := [] }

/-- A store with a single seat entity whose id contains a comma. -/
def commaSingleDB : DB :=
  { nodes :=
      [ { id := "a,b".data, x := 1, y := 1, level := 0, type := "seat" } ]
    tiles := [] }

/-- A store whose seat entity has a comma inside its id, plus a corridor
entity whose id collides with the first fragment of that comma id. -/
def commaDB : DB :=
  { nodes :=
      [ { id := "c,x".data, x := 1, y := 1, level := 0, type := "seat" }
      , { id := "c".data, x := 2, y := 2, level := 0, type := "corridor" } ]
    tiles := [] }

/-- A tile whose membership field references an id that resolves to no
stored entity (a stale reference). -/
def staleTile : Tile :=
  { id := tileIdStr 0 0 0
    grid_x := 0
    grid_y := 0
    level := 0
    min_x := 0
    max_x := 5
    min_y := 0
    max_y := 5
    walkable := true
    node_id := some "ghost".data
    poi_id := none
    seat_id := none
    gate_id := none }

/-- A store holding only `staleTile` and no entities at all. -/
def staleDB : DB := { nodes := [], tiles := [staleTile] }

/-! ### Claim theorems -/

/-- C3: cell-coordinate derivation returns
`(⌊(x - originX)/cellSize⌋, ⌊(y - originY)/cellSize⌋)` using mathematical
floor, not truncation toward zero: under `cellSize = 5`, origin `(0,0)`,
a boundary point `(5.0, 5.0)` lands in cell `(1, 1)`, `(4.999, 4.999)`
in `(0, 0)`, and `(-3.0, -8.0)` in `(-1, -2)`. -/
theorem cell_coords_floor (gm : GridManager) (x y : ℚ) (h : 0 < gm.cell_size) :
    gm.get_cell_coords x y =
      (⌊(x - gm.origin_x) / gm.cell_size⌋, ⌊(y - gm.origin_y) / gm.cell_size⌋) ∧
    gmEx.get_cell_coords 5 5 = (1, 1) ∧
    gmEx.get_cell_coords (4999/1000) (4999/1000) = (0, 0) ∧
    gmEx.get_cell_coords (-3) (-8) = (-1, -2) := by
  refine ⟨rfl, ?_, ?_, ?_⟩ <;> with_unfolding_all decide

theorem cell_coords_floor_witness :
    0 < gmEx.cell_size ∧ gmEx.get_cell_coords 5 5 = (1, 1) :=
  ⟨by with_unfolding_all decide,
   (cell_coords_floor gmEx 5 5 (by with_unfolding_all decide)).2.1⟩

/-- C8: `get_cell_bounds` is the spatial inverse of `get_cell_coords`:
for every integer cell `(gx, gy)` and any configuration with positive
cell size, the midpoint of the cell's bounding rectangle maps back to
exactly `(gx, gy)`. -/
theorem cell_bounds_midpoint_inverse (gm : GridManager) (gx gy : Int)
    (h : 0 < gm.cell_size) :
    gm.get_cell_coords
      (((gm.get_cell_bounds gx gy).1 + (gm.get_cell_bounds gx gy).2.1) / 2)
      (((gm.get_cell_bounds gx gy).2.2.1 + (gm.get_cell_bounds gx gy).2.2.2) / 2)
      = (gx, gy) := by
  have hne : gm.cell_size ≠ 0 := ne_of_gt h
  have hx : ((((gm.get_cell_bounds gx gy).1 + (gm.get_cell_bounds gx gy).2.1) / 2)
      - gm.origin_x) / gm.cell_size = (gx : ℚ) + 1/2 := by
    show ((gm.origin_x + gx * gm.cell_size +
        (gm.origin_x + gx * gm.cell_size + gm.cell_size)) / 2
        - gm.origin_x) / gm.cell_size = (gx : ℚ) + 1/2
    field_simp
    ring
  have hy : ((((gm.get_cell_bounds gx gy).2.2.1 + (gm.get_cell_bounds gx gy).2.2.2) / 2)
      - gm.origin_y) / gm.cell_size = (gy : ℚ) + 1/2 := by
    show ((gm.origin_y + gy * gm.cell_size +
        (gm.origin_y + gy * gm.cell_size + gm.cell_size)) / 2
        - gm.origin_y) / gm.cell_size = (gy : ℚ) + 1/2
    field_simp
    ring
  rw [GridManager.get_cell_coords, hx, hy, Prod.mk.injEq]
  constructor <;> (rw [add_comm, Int.floor_add_int]; norm_num)

theorem cell_bounds_midpoint_inverse_witness :
    0 < gmEx.cell_size ∧
    gmEx.get_cell_coords
      (((gmEx.get_cell_bounds 2 3).1 + (gmEx.get_cell_bounds 2 3).2.1) / 2)
      (((gmEx.get_cell_bounds 2 3).2.2.1 + (gmEx.get_cell_bounds 2 3).2.2.2) / 2)
      = (2, 3) :=
  ⟨by with_unfolding_all decide,
   cell_bounds_midpoint_inverse gmEx 2 3 (by with_unfolding_all decide)⟩

/-- C9 counterexample: constructing a `GridManager` with a non-positive
`cell_size` does not fail — the constructor stores the invalid value
unchanged, and later per-call operations run on it (here returning a
nonsensical cell), contradicting the claimed construction-time
rejection. -/
theorem init_nonpositive_counterexample :
    (initGridManager (-1) 0 0).cell_size = -1 ∧
    (initGridManager (-1) 0 0).cell_size ≤ 0 ∧
    (initGridManager 0 0 0).cell_size = 0 ∧
    (initGridManager (-1) 0 0).get_cell_coords 5 5 = (-5, -5) := by
  refine ⟨rfl, ?_, rfl, ?_⟩ <;> with_unfolding_all decide

/-- C9 amended: a non-positive `cell_size` is accepted at construction:
`__init__` stores the three parameters verbatim with no validation, so an
invalid configuration is never rejected — it only manifests through the
results of later per-call operations. -/
theorem init_no_validation (c ox oy : ℚ) :
    initGridManager c ox oy =
      { cell_size := c, origin_x := ox, origin_y := oy } ∧
    (initGridManager c ox oy).cell_size = c ∧
    (initGridManager c ox oy).origin_x = ox ∧
    (initGridManager c ox oy).origin_y = oy :=
  ⟨rfl, rfl, rfl, rfl⟩

/-- C5: `rebuild_grid` is idempotent against an unchanged store: a second
rebuild returns the same tile count and reproduces the tile table exactly
(hence every tile's membership lists are equal, in particular as sets). -/
theorem rebuild_idempotent (gm : GridManager) (db : DB) :
    (gm.rebuild_grid (gm.rebuild_grid db).1).2 = (gm.rebuild_grid db).2 ∧
    (gm.rebuild_grid (gm.rebuild_grid db).1).1.tiles =
      (gm.rebuild_grid db).1.tiles ∧
    (gm.rebuild_grid (gm.rebuild_grid db).1).1.tiles.map
        (fun t => (nodeList t, poiList t, seatList t, gateList t)) =
      (gm.rebuild_grid db).1.tiles.map
        (fun t => (nodeList t, poiList t, seatList t, gateList t)) :=
  ⟨rfl, rfl, rfl⟩

/-! ### C7 and C6 -/

theorem get_or_create_eq (gm : GridManager) (db : DB) (x y : ℚ) (level : Int) :
    gm.get_or_create_tile db x y level =
      (match findTile db.tiles (tileIdStr (gm.get_cell_coords x y).1
          (gm.get_cell_coords x y).2 level) with
       | some tile => (db, tile)
       | none =>
         ({ db with tiles := db.tiles ++ [gm.newTileRow (gm.get_cell_coords x y).1
             (gm.get_cell_coords x y).2 level none] },
          gm.newTileRow (gm.get_cell_coords x y).1 (gm.get_cell_coords x y).2
            level none) : DB × Tile) := rfl

theorem get_or_create_found (gm : GridManager) (db : DB) (x y : ℚ) (level : Int) :
    (gm.get_or_create_tile db x y level).2.id =
      tileIdStr (gm.get_cell_coords x y).1 (gm.get_cell_coords x y).2 level ∧
    findTile (gm.get_or_create_tile db x y level).1.tiles
        (tileIdStr (gm.get_cell_coords x y).1 (gm.get_cell_coords x y).2 level) =
      some (gm.get_or_create_tile db x y level).2 ∧
    (gm.get_or_create_tile db x y level).1.nodes = db.nodes := by
  rw [get_or_create_eq]
  cases hft : findTile db.tiles (tileIdStr (gm.get_cell_coords x y).1
      (gm.get_cell_coords x y).2 level) with
  | some t =>
    have hid : t.id = tileIdStr (gm.get_cell_coords x y).1
        (gm.get_cell_coords x y).2 level := by
      have := List.find?_some hft
      simpa using this
    exact ⟨hid, hft, rfl⟩
  | none =>
    refine ⟨rfl, ?_, rfl⟩
    show findTile (db.tiles ++ [gm.newTileRow (gm.get_cell_coords x y).1
        (gm.get_cell_coords x y).2 level none]) _ = _
    unfold findTile at hft ⊢
    rw [List.find?_append, hft]
    have hid : (gm.newTileRow (gm.get_cell_coords x y).1
        (gm.get_cell_coords x y).2 level none).id =
        tileIdStr (gm.get_cell_coords x y).1 (gm.get_cell_coords x y).2 level := rfl
    simp [List.find?, hid]

/-- C7: `get_or_create_tile` is a deterministic get-or-create: it derives
the tile identity from the cell coordinates of `(x, y)` plus `level`,
returns the stored tile when one exists, and otherwise persists and
returns a fresh tile with bounds `min_x = origin_x + gx·cell_size`,
`max_x = min_x + cell_size` (likewise for y), `walkable = true` and all
four membership lists empty; any further call whose coordinates fall in
the same cell at the same level returns the same persisted tile and
leaves the store unchanged. -/
theorem get_or_create_tile_spec (gm : GridManager) (db : DB) (x y : ℚ) (level : Int) :
    (∀ t, findTile db.tiles (tileIdStr (gm.get_cell_coords x y).1
        (gm.get_cell_coords x y).2 level) = some t →
      gm.get_or_create_tile db x y level = (db, t)) ∧
    (findTile db.tiles (tileIdStr (gm.get_cell_coords x y).1
        (gm.get_cell_coords x y).2 level) = none →
      gm.get_or_create_tile db x y level =
        ({ db with tiles := db.tiles ++ [gm.newTileRow (gm.get_cell_coords x y).1
            (gm.get_cell_coords x y).2 level none] },
         gm.newTileRow (gm.get_cell_coords x y).1 (gm.get_cell_coords x y).2
           level none)) ∧
    (∀ gx gy lv : Int,
      (gm.newTileRow gx gy lv none).id = tileIdStr gx gy lv ∧
      (gm.newTileRow gx gy lv none).grid_x = gx ∧
      (gm.newTileRow gx gy lv none).grid_y = gy ∧
      (gm.newTileRow gx gy lv none).level = lv ∧
      (gm.newTileRow gx gy lv none).min_x = gm.origin_x + gx * gm.cell_size ∧
      (gm.newTileRow gx gy lv none).max_x =
        (gm.newTileRow gx gy lv none).min_x + gm.cell_size ∧
      (gm.newTileRow gx gy lv none).min_y = gm.origin_y + gy * gm.cell_size ∧
      (gm.newTileRow gx gy lv none).max_y =
        (gm.newTileRow gx gy lv none).min_y + gm.cell_size ∧
      (gm.newTileRow gx gy lv none).walkable = true ∧
      nodeList (gm.newTileRow gx gy lv none) = [] ∧
      poiList (gm.newTileRow gx gy lv none) = [] ∧
      seatList (gm.newTileRow gx gy lv none) = [] ∧
      gateList (gm.newTileRow gx gy lv none) = []) ∧
    (∀ x' y' : ℚ, gm.get_cell_coords x' y' = gm.get_cell_coords x y →
      gm.get_or_create_tile (gm.get_or_create_tile db x y level).1 x' y' level =
        ((gm.get_or_create_tile db x y level).1,
         (gm.get_or_create_tile db x y level).2)) := by
  refine ⟨?_, ?_, ?_, ?_⟩
  · intro t h
    rw [get_or_create_eq, h]
  · intro h
    rw [get_or_create_eq, h]
  · intro gx gy lv
    exact ⟨rfl, rfl, rfl, rfl, rfl, rfl, rfl, rfl, rfl, rfl, rfl, rfl, rfl⟩
  · intro x' y' hxy
    obtain ⟨_, hfind, _⟩ := get_or_create_found gm db x y level
    rw [get_or_create_eq gm (gm.get_or_create_tile db x y level).1 x' y' level,
      hxy, hfind]

theorem get_or_create_tile_spec_witness :
    findTile emptyDB.tiles (tileIdStr (gmEx.get_cell_coords 12 7).1
        (gmEx.get_cell_coords 12 7).2 0) = none ∧
    gmEx.get_or_create_tile emptyDB 12 7 0 =
      ({ emptyDB with tiles := emptyDB.tiles ++
          [gmEx.newTileRow (gmEx.get_cell_coords 12 7).1
            (gmEx.get_cell_coords 12 7).2 0 none] },
       gmEx.newTileRow (gmEx.get_cell_coords 12 7).1
         (gmEx.get_cell_coords 12 7).2 0 none) :=
  ⟨by with_unfolding_all decide,
   (get_or_create_tile_spec gmEx emptyDB 12 7 0).2.1 (by with_unfolding_all decide)⟩

theorem get_entities_eq (db : DB) (gx gy lvl : Int) :
    get_entities_in_cell db gx gy lvl =
      ((match findTile db.tiles (tileIdStr gx gy lvl) with
        | none => { nodes := [], pois := [], seats := [], gates := [], tile := none }
        | some tile => resolveTile db tile) : CellEntities) := rfl

theorem mem_filterMap_lookup (db : DB) (ids all_ids : List Str) (n : Node)
    (hn : n ∈ ids.filterMap (fun nid =>
      (if all_ids = [] then ([] : List Node)
       else db.nodes.filter (fun m => m.id ∈ all_ids)).reverse.find?
        (fun m => m.id = nid))) :
    n ∈ db.nodes ∧ n.id ∈ ids := by
  rcases List.mem_filterMap.mp hn with ⟨nid, hnid, hfind⟩
  have hmem := List.mem_of_find?_eq_some hfind
  have hpred := List.find?_some hfind
  have hid : n.id = nid := by simpa using hpred
  rw [List.mem_reverse] at hmem
  constructor
  · by_cases hia : all_ids = []
    · rw [if_pos hia] at hmem
      simp at hmem
    · rw [if_neg hia] at hmem
      exact List.mem_of_mem_filter hmem
  · rw [hid]
    exact hnid

/-- C6: `get_entities_in_cell` never fails for a valid cell address: an
absent tile yields empty lists and a null tile rather than an error, and
every entity it returns resolves in the store — an id in a membership
list with no matching stored entity (a stale reference) contributes
nothing to the result instead of raising; `staleDB`, whose only tile
references the unresolvable id `"ghost"`, yields all-empty lists with the
tile still reported. -/
theorem entities_in_cell_total (db : DB) (gx gy lvl : Int) :
    (findTile db.tiles (tileIdStr gx gy lvl) = none →
      get_entities_in_cell db gx gy lvl =
        { nodes := [], pois := [], seats := [], gates := [], tile := none }) ∧
    (∀ n ∈ (get_entities_in_cell db gx gy lvl).nodes, n ∈ db.nodes) ∧
    (∀ n ∈ (get_entities_in_cell db gx gy lvl).pois, n ∈ db.nodes) ∧
    (∀ n ∈ (get_entities_in_cell db gx gy lvl).seats, n ∈ db.nodes) ∧
    (∀ n ∈ (get_entities_in_cell db gx gy lvl).gates, n ∈ db.nodes) ∧
    (∀ i : Str, (∀ m ∈ db.nodes, m.id ≠ i) →
      ∀ n, (n ∈ (get_entities_in_cell db gx gy lvl).nodes ∨
            n ∈ (get_entities_in_cell db gx gy lvl).pois ∨
            n ∈ (get_entities_in_cell db gx gy lvl).seats ∨
            n ∈ (get_entities_in_cell db gx gy lvl).gates) → n.id ≠ i) ∧
    get_entities_in_cell staleDB 0 0 0 =
      { nodes := [], pois := [], seats := [], gates := [],
        tile := some staleTile } := by
  have hres : ∀ n : Node,
      (n ∈ (get_entities_in_cell db gx gy lvl).nodes ∨
       n ∈ (get_entities_in_cell db gx gy lvl).pois ∨
       n ∈ (get_entities_in_cell db gx gy lvl).seats ∨
       n ∈ (get_entities_in_cell db gx gy lvl).gates) → n ∈ db.nodes := by
    intro n hn
    rw [get_entities_eq] at hn
    cases hft : findTile db.tiles (tileIdStr gx gy lvl) with
    | none =>
      rw [hft] at hn
      rcases hn with h | h | h | h <;> exact absurd h (List.not_mem_nil n)
    | some tile =>
      rw [hft] at hn
      rcases hn with h | h | h | h <;>
        exact (mem_filterMap_lookup db _ _ n h).1
  refine ⟨?_, ?_, ?_, ?_, ?_, ?_, ?_⟩
  · intro h
    rw [get_entities_eq, h]
  · intro n hn
    exact hres n (Or.inl hn)
  · intro n hn
    exact hres n (Or.inr (Or.inl hn))
  · intro n hn
    exact hres n (Or.inr (Or.inr (Or.inl hn)))
  · intro n hn
    exact hres n (Or.inr (Or.inr (Or.inr hn)))
  · intro i hi n hn
    exact hi n (hres n hn)
  · with_unfolding_all decide

theorem entities_in_cell_total_witness :
    findTile emptyDB.tiles (tileIdStr 0 0 0) = none ∧
    get_entities_in_cell emptyDB 0 0 0 =
      { nodes := [], pois := [], seats := [], gates := [], tile := none } :=
  ⟨by with_unfolding_all decide,
   (entities_in_cell_total emptyDB 0 0 0).1 (by with_unfolding_all decide)⟩

/-! ### C4 and C10 -/

theorem assign_eq (gm : GridManager) (db : DB) (x y : ℚ) (level : Int)
    (et : String) (eo : Option Str) :
    gm.assign_entity_to_cell db x y level et eo =
      ({ (gm.get_or_create_tile db x y level).1 with
          tiles := (gm.get_or_create_tile db x y level).1.tiles.map
            (fun u => if u.id = (gm.get_or_create_tile db x y level).2.id
              then assignUpdate (gm.get_or_create_tile db x y level).2 et eo
              else u) },
       assignUpdate (gm.get_or_create_tile db x y level).2 et eo) := rfl

theorem assignUpdate_idem (t : Tile) (et : String) (i : Str) (h2 : ',' ∉ i) :
    assignUpdate (assignUpdate t et (some i)) et (some i) =
      assignUpdate t et (some i) := by
  by_cases hn : et = "node"
  · subst hn
    simp [assignUpdate, append_id_idem t.node_id i h2]
  · by_cases hp : et = "poi"
    · subst hp
      simp [assignUpdate, append_id_idem t.poi_id i h2]
    · by_cases hs : et = "seat"
      · subst hs
        simp [assignUpdate, append_id_idem t.seat_id i h2]
      · by_cases hg : et = "gate"
        · subst hg
          simp [assignUpdate, append_id_idem t.gate_id i h2]
        · simp [assignUpdate, hn, hp, hs, hg]

theorem categoryField_assignUpdate (t : Tile) (et : String) (i : Str)
    (h : et = "node" ∨ et = "poi" ∨ et = "seat" ∨ et = "gate") :
    categoryField et (assignUpdate t et (some i)) =
      some (append_id (categoryField et t) i) := by
  rcases h with h | h | h | h <;> subst h <;> simp [categoryField, assignUpdate]

theorem assign_findTile (gm : GridManager) (db : DB) (x y : ℚ) (level : Int)
    (et : String) (eo : Option Str) :
    (gm.assign_entity_to_cell db x y level et eo).2 =
      assignUpdate (gm.get_or_create_tile db x y level).2 et eo ∧
    (gm.assign_entity_to_cell db x y level et eo).2.id =
      tileIdStr (gm.get_cell_coords x y).1 (gm.get_cell_coords x y).2 level ∧
    findTile (gm.assign_entity_to_cell db x y level et eo).1.tiles
        (tileIdStr (gm.get_cell_coords x y).1 (gm.get_cell_coords x y).2 level) =
      some (gm.assign_entity_to_cell db x y level et eo).2 ∧
    (∀ u ∈ (gm.assign_entity_to_cell db x y level et eo).1.tiles,
      u.id = tileIdStr (gm.get_cell_coords x y).1 (gm.get_cell_coords x y).2 level →
      u = (gm.assign_entity_to_cell db x y level et eo).2) ∧
    (gm.assign_entity_to_cell db x y level et eo).1.nodes = db.nodes := by
  obtain ⟨hid0, hfind0, hnodes0⟩ := get_or_create_found gm db x y level
  have hlam : (fun u : Tile =>
      if u.id = (gm.get_or_create_tile db x y level).2.id
      then assignUpdate (gm.get_or_create_tile db x y level).2 et eo else u) =
      (fun u : Tile =>
        if u.id = tileIdStr (gm.get_cell_coords x y).1 (gm.get_cell_coords x y).2 level
        then assignUpdate (gm.get_or_create_tile db x y level).2 et eo else u) := by
    funext u
    rw [hid0]
  have hid1 : (assignUpdate (gm.get_or_create_tile db x y level).2 et eo).id =
      tileIdStr (gm.get_cell_coords x y).1 (gm.get_cell_coords x y).2 level := by
    rw [assignUpdate_id]
    exact hid0
  refine ⟨rfl, hid1, ?_, ?_, hnodes0⟩
  · show findTile ((gm.get_or_create_tile db x y level).1.tiles.map
        (fun u => if u.id = (gm.get_or_create_tile db x y level).2.id
          then assignUpdate (gm.get_or_create_tile db x y level).2 et eo else u))
        (tileIdStr (gm.get_cell_coords x y).1 (gm.get_cell_coords x y).2 level) =
      some (assignUpdate (gm.get_or_create_tile db x y level).2 et eo)
    rw [hlam]
    apply findTile_update _ _ _ hid1
    rw [hfind0]
    rfl
  · intro u hu huid
    have hu' : u ∈ (gm.get_or_create_tile db x y level).1.tiles.map
        (fun u => if u.id = (gm.get_or_create_tile db x y level).2.id
          then assignUpdate (gm.get_or_create_tile db x y level).2 et eo else u) := hu
    rw [hlam] at hu'
    exact mem_update_of_id _ _ _ u hu' huid

theorem count_append_id (cur : Option Str) (i : Str) (h1 : i ≠ []) (h2 : ',' ∉ i)
    (hc : (splitIds cur).count i ≤ 1) :
    (splitIds (some (append_id cur i))).count i = 1 := by
  rw [splitIds_append_id]
  by_cases h : i ∈ splitIds cur
  · rw [if_pos h]
    have h1' : 0 < (splitIds cur).count i := List.count_pos_iff.mpr h
    omega
  · rw [if_neg h, splitIds_single i h1 h2, List.count_append]
    rw [List.count_eq_zero.mpr h]
    simp

/-- C4 counterexample: with the comma-containing id `"a,b"` the second
identical `assign_entity_to_cell` call appends again — the stored string
`"a,b"` reads back as the two fragments `a`, `b`, so the value `"a,b"` is
judged absent — doubling the seat membership list (length 2 to 4) instead
of leaving it unchanged, refuting the claimed unconditional idempotence. -/
theorem assign_idempotent_counterexample :
    seatList (gmEx.assign_entity_to_cell emptyDB 1 1 0 "seat"
        (some "a,b".data)).2 = ["a".data, "b".data] ∧
    seatList (gmEx.assign_entity_to_cell
        (gmEx.assign_entity_to_cell emptyDB 1 1 0 "seat" (some "a,b".data)).1
        1 1 0 "seat" (some "a,b".data)).2 =
      ["a".data, "b".data, "a".data, "b".data] ∧
    ¬ seatList (gmEx.assign_entity_to_cell
          (gmEx.assign_entity_to_cell emptyDB 1 1 0 "seat" (some "a,b".data)).1
          1 1 0 "seat" (some "a,b".data)).2 =
        seatList (gmEx.assign_entity_to_cell emptyDB 1 1 0 "seat"
          (some "a,b".data)).2 := by
  refine ⟨?_, ?_, ?_⟩ <;> with_unfolding_all decide

/-- C4 amended: `_append_id` deduplicates by value and appending an id
already present is a no-op preserving all prior positions; consequently,
for an `entityId` containing no comma (a comma id is re-split on read and
defeats the membership test, see the counterexample), calling
`assign_entity_to_cell` twice with identical `(x, y, level, category,
id)` returns exactly the state and tile of the first call — in
particular the category's membership list is unchanged in length and
content. -/
theorem assign_entity_idempotent (gm : GridManager) (db : DB) (x y : ℚ)
    (level : Int) (et : String) (i : Str) (h2 : ',' ∉ i) :
    gm.assign_entity_to_cell
        (gm.assign_entity_to_cell db x y level et (some i)).1 x y level et
        (some i) =
      gm.assign_entity_to_cell db x y level et (some i) := by
  obtain ⟨he2, hid1, hfind1, hall1, _⟩ := assign_findTile gm db x y level et (some i)
  set a1 := gm.assign_entity_to_cell db x y level et (some i) with ha1
  have hgoc : gm.get_or_create_tile a1.1 x y level = (a1.1, a1.2) := by
    rw [get_or_create_eq, hfind1]
  have hupd2 : assignUpdate a1.2 et (some i) = a1.2 := by
    rw [he2, assignUpdate_idem _ _ _ h2, ← he2]
  rw [assign_eq gm a1.1 x y level et (some i), hgoc]
  simp only [hupd2]
  have hmap : a1.1.tiles.map (fun u => if u.id = a1.2.id then a1.2 else u) =
      a1.1.tiles := by
    have hcg : ∀ u ∈ a1.1.tiles,
        (if u.id = a1.2.id then a1.2 else u) = id u := by
      intro u hu
      by_cases hc : u.id = a1.2.id
      · rw [if_pos hc, id]
        exact (hall1 u hu (hc.trans hid1)).symm
      · rw [if_neg hc, id]
    rw [List.map_congr_left hcg, List.map_id]
  rw [hmap]

theorem assign_entity_idempotent_witness :
    (',' ∉ "n1".data) ∧
    gmEx.assign_entity_to_cell
        (gmEx.assign_entity_to_cell emptyDB 1 1 0 "seat" (some "n1".data)).1
        1 1 0 "seat" (some "n1".data) =
      gmEx.assign_entity_to_cell emptyDB 1 1 0 "seat" (some "n1".data) :=
  ⟨by with_unfolding_all decide,
   assign_entity_idempotent gmEx emptyDB 1 1 0 "seat" "n1".data
     (by with_unfolding_all decide)⟩

/-- C10: membership lists are persisted comma-joined and re-split on
read, so the assign-then-read round trip holds exactly for well-formed
ids: for a non-empty comma-free `entityId` (against a tile whose stored
list does not already hold the id more than once — no tile reachable by
the index's own operations does), after `assign_entity_to_cell` the
category's membership list contains the id exactly once, and the
committed tile is the one found by a subsequent lookup; an empty id is
dropped entirely on read, and a comma-containing id reads back as
separate fragments, so neither round-trips. -/
theorem assign_roundtrip (gm : GridManager) (db : DB) (x y : ℚ) (level : Int)
    (et : String) (i : Str)
    (hcat : et = "node" ∨ et = "poi" ∨ et = "seat" ∨ et = "gate")
    (h1 : i ≠ []) (h2 : ',' ∉ i)
    (hcount : (splitIds (categoryField et
        (gm.get_or_create_tile db x y level).2)).count i ≤ 1) :
    (splitIds (categoryField et
        (gm.assign_entity_to_cell db x y level et (some i)).2)).count i = 1 ∧
    findTile (gm.assign_entity_to_cell db x y level et (some i)).1.tiles
        (tileIdStr (gm.get_cell_coords x y).1 (gm.get_cell_coords x y).2 level) =
      some (gm.assign_entity_to_cell db x y level et (some i)).2 ∧
    [] ∉ seatList (gmEx.assign_entity_to_cell emptyDB 1 1 0 "seat"
        (some [])).2 ∧
    seatList (gmEx.assign_entity_to_cell emptyDB 1 1 0 "seat"
        (some "a2,b2".data)).2 = ["a2".data, "b2".data] ∧
    (seatList (gmEx.assign_entity_to_cell emptyDB 1 1 0 "seat"
        (some "a2,b2".data)).2).count "a2,b2".data = 0 := by
  obtain ⟨he2, _, hfind, _, _⟩ := assign_findTile gm db x y level et (some i)
  refine ⟨?_, hfind, ?_, ?_, ?_⟩
  · rw [he2, categoryField_assignUpdate _ _ _ hcat]
    exact count_append_id _ _ h1 h2 hcount
  · with_unfolding_all decide
  · with_unfolding_all decide
  · with_unfolding_all decide

theorem assign_roundtrip_witness :
    ("seat" = "node" ∨ "seat" = "poi" ∨ "seat" = "seat" ∨ "seat" = "gate") ∧
    ("n2".data ≠ []) ∧ (',' ∉ "n2".data) ∧
    (splitIds (categoryField "seat"
        (gmEx.get_or_create_tile emptyDB 1 1 0).2)).count "n2".data ≤ 1 ∧
    (splitIds (categoryField "seat"
        (gmEx.assign_entity_to_cell emptyDB 1 1 0 "seat"
          (some "n2".data)).2)).count "n2".data = 1 :=
  ⟨by with_unfolding_all decide, by with_unfolding_all decide,
   by with_unfolding_all decide, by with_unfolding_all decide,
   (assign_roundtrip gmEx emptyDB 1 1 0 "seat" "n2".data
     (by with_unfolding_all decide) (by with_unfolding_all decide)
     (by with_unfolding_all decide) (by with_unfolding_all decide)).1⟩

/-! ### C1 and C2 -/

theorem mem_filter_map_id_iff (P : List Node) (hnd : (P.map Node.id).Nodup)
    (n : Node) (hn : n ∈ P) (p : Node → Bool) :
    n.id ∈ (P.filter p).map Node.id ↔ p n = true := by
  constructor
  · intro hmem
    rcases List.mem_map.mp hmem with ⟨m, hmf, hmi⟩
    rcases List.mem_filter.mp hmf with ⟨hmP, hcond⟩
    rwa [List.inj_on_of_nodup_map hnd hmP hn hmi] at hcond
  · intro hp
    exact List.mem_map.mpr ⟨n, List.mem_filter.mpr ⟨hn, hp⟩, rfl⟩

/-- C1 counterexample: rebuilding a store whose single seat entity has
the id `"a,b"` does not add that id to the tile's `nodeIds` (or
`seatIds`) as a value: the comma-joined field reads back as the two
fragments `a` and `b`, so the entity's id is absent from every
membership list — refuting the claim's unconditional "adds each
entity's id" clauses as stated. -/
theorem rebuild_full_reconstruction_counterexample :
    (gmEx.rebuild_grid commaSingleDB).1.tiles.map
        (fun t => (nodeList t, seatList t)) =
      [(["a".data, "b".data], ["a".data, "b".data])] ∧
    (∀ t ∈ (gmEx.rebuild_grid commaSingleDB).1.tiles,
      "a,b".data ∉ nodeList t ∧ "a,b".data ∉ seatList t) := by
  refine ⟨?_, ?_⟩ <;> with_unfolding_all decide

/-- C1 amended: `rebuild_grid` performs a full reconstruction; its
per-entity membership clauses hold for stores whose entity ids are
non-empty, comma-free — so they survive the comma-joined encoding
intact (see the counterexample) — and pairwise distinct, as the primary
key guarantees: it discards all tiles, scans the node table once, returns
the length of the freshly built tile table, whose tiles have pairwise
distinct composite ids, correct bounds, and exist exactly for the
distinct `(cell, level)` keys of the scanned nodes; every node's id lands
in its tile's `nodeIds`, and additionally in `gateIds` / `seatIds` /
`poiIds` exactly when its type is `"gate"` / `"seat"` / in the closed POI
set.  In the spec's scenario (3 seats + 2 corridors in one cell) the
single resulting tile has `nodeIds` length 5, `seatIds` length 3, and
empty `poiIds`/`gateIds`. -/
theorem rebuild_full_reconstruction (gm : GridManager) (db : DB)
    (hgood : ∀ n ∈ db.nodes, goodId n.id)
    (hnd : (db.nodes.map Node.id).Nodup) :
    (gm.rebuild_grid db).2 = (gm.rebuild_grid db).1.tiles.length ∧
    ((gm.rebuild_grid db).1.tiles.map Tile.id).Nodup ∧
    (∀ t ∈ (gm.rebuild_grid db).1.tiles,
      t.id = tileIdStr t.grid_x t.grid_y t.level ∧
      (t.min_x, t.max_x, t.min_y, t.max_y) =
        gm.get_cell_bounds t.grid_x t.grid_y ∧
      t.walkable = true) ∧
    (∀ t ∈ (gm.rebuild_grid db).1.tiles, ∃ n ∈ db.nodes, tileIdOf gm n = t.id) ∧
    (∀ n ∈ db.nodes, ∃ t ∈ (gm.rebuild_grid db).1.tiles,
      t.id = tileIdOf gm n ∧
      n.id ∈ nodeList t ∧
      (n.id ∈ gateList t ↔ n.type = "gate") ∧
      (n.id ∈ seatList t ↔ n.type = "seat") ∧
      (n.id ∈ poiList t ↔ n.type ∈ poi_types)) ∧
    (gmEx.rebuild_grid scenarioDB).2 = 1 ∧
    (gmEx.rebuild_grid scenarioDB).1.tiles.map
        (fun t => ((nodeList t).length, (seatList t).length,
          (poiList t).length, (gateList t).length)) = [(5, 3, 0, 0)] := by
  obtain ⟨⟨hndt, hbounds, hsurj, htot, hlists⟩, _, hcount⟩ :=
    rebuild_inv gm db hgood hnd
  refine ⟨hcount, hndt, hbounds, hsurj, ?_, ?_, ?_⟩
  · intro n hn
    rcases htot n hn with ⟨t, ht, hteq⟩
    have hc : tileIdOf gm n = t.id := hteq.symm
    obtain ⟨e1, e2, e3, e4⟩ := hlists t ht
    refine ⟨t, ht, hteq, ?_, ?_, ?_, ?_⟩
    · rw [e1, mem_filter_map_id_iff db.nodes hnd n hn]
      simp [hc]
    · rw [e2, mem_filter_map_id_iff db.nodes hnd n hn]
      simp [hc]
    · rw [e3, mem_filter_map_id_iff db.nodes hnd n hn]
      simp [hc]
    · rw [e4, mem_filter_map_id_iff db.nodes hnd n hn]
      simp [hc]
  · with_unfolding_all decide
  · with_unfolding_all decide

theorem rebuild_full_reconstruction_witness :
    (∀ n ∈ scenarioDB.nodes, goodId n.id) ∧
    (scenarioDB.nodes.map Node.id).Nodup ∧
    (gmEx.rebuild_grid scenarioDB).2 =
      (gmEx.rebuild_grid scenarioDB).1.tiles.length :=
  ⟨by with_unfolding_all decide, by with_unfolding_all decide,
   (rebuild_full_reconstruction gmEx scenarioDB (by with_unfolding_all decide)
     (by with_unfolding_all decide)).1⟩

/-- C2 counterexample: rebuilding `commaDB` — a seat entity with id
`"c,x"` and a corridor entity with id `"c"` in one cell — leaves the
seat entity's id `"c,x"` absent from `nodeIds` (it reads back as the
fragments `c`, `x`), and puts the corridor entity's id `"c"` inside
`seatIds`; both refute the claimed per-entity invariant as stated. -/
theorem rebuild_category_counterexample :
    (gmEx.rebuild_grid commaDB).1.tiles.map (fun t => (nodeList t, seatList t)) =
      [(["c".data, "x".data], ["c".data, "x".data])] ∧
    (∀ t ∈ (gmEx.rebuild_grid commaDB).1.tiles, "c,x".data ∉ nodeList t) ∧
    (∃ n ∈ commaDB.nodes, n.type = "corridor" ∧
      ∃ t ∈ (gmEx.rebuild_grid commaDB).1.tiles, n.id ∈ seatList t) := by
  refine ⟨?_, ?_, ?_⟩ <;> with_unfolding_all decide

/-- C2 amended: for stores whose entity ids are non-empty, comma-free
and pairwise distinct (the primary-key contract plus the encoding's
well-formedness requirement), after `rebuild_grid` every tile's
`nodeIds` contains every id of `poiIds ∪ seatIds ∪ gateIds`; every
indexed entity id appears in `nodeIds`, additionally in exactly the one
category list matching its recognized type (`"gate"`, `"seat"`, or a POI
type), and in no category list when its type is uncategorized. -/
theorem rebuild_category_invariant (gm : GridManager) (db : DB)
    (hgood : ∀ n ∈ db.nodes, goodId n.id)
    (hnd : (db.nodes.map Node.id).Nodup) :
    ∀ t ∈ (gm.rebuild_grid db).1.tiles,
      (∀ i : Str, i ∈ poiList t ∨ i ∈ seatList t ∨ i ∈ gateList t →
        i ∈ nodeList t) ∧
      (∀ n ∈ db.nodes, tileIdOf gm n = t.id →
        n.id ∈ nodeList t ∧
        (n.type = "gate" →
          n.id ∈ gateList t ∧ n.id ∉ seatList t ∧ n.id ∉ poiList t) ∧
        (n.type = "seat" →
          n.id ∈ seatList t ∧ n.id ∉ gateList t ∧ n.id ∉ poiList t) ∧
        (n.type ∈ poi_types →
          n.id ∈ poiList t ∧ n.id ∉ gateList t ∧ n.id ∉ seatList t) ∧
        (n.type ≠ "gate" → n.type ≠ "seat" → n.type ∉ poi_types →
          n.id ∉ gateList t ∧ n.id ∉ seatList t ∧ n.id ∉ poiList t)) := by
  obtain ⟨⟨hndt, hbounds, hsurj, htot, hlists⟩, _, _⟩ :=
    rebuild_inv gm db hgood hnd
  intro t ht
  obtain ⟨e1, e2, e3, e4⟩ := hlists t ht
  constructor
  · intro i hi
    have hex : ∃ m ∈ db.nodes, tileIdOf gm m = t.id ∧ m.id = i := by
      rcases hi with h | h | h
      · rw [e4] at h
        rcases List.mem_map.mp h with ⟨m, hmf, hmi⟩
        rcases List.mem_filter.mp hmf with ⟨hmP, hcond⟩
        rw [decide_eq_true_eq] at hcond
        exact ⟨m, hmP, hcond.1, hmi⟩
      · rw [e3] at h
        rcases List.mem_map.mp h with ⟨m, hmf, hmi⟩
        rcases List.mem_filter.mp hmf with ⟨hmP, hcond⟩
        rw [decide_eq_true_eq] at hcond
        exact ⟨m, hmP, hcond.1, hmi⟩
      · rw [e2] at h
        rcases List.mem_map.mp h with ⟨m, hmf, hmi⟩
        rcases List.mem_filter.mp hmf with ⟨hmP, hcond⟩
        rw [decide_eq_true_eq] at hcond
        exact ⟨m, hmP, hcond.1, hmi⟩
    rcases hex with ⟨m, hmP, hmtid, hmi⟩
    rw [e1]
    exact List.mem_map.mpr ⟨m, List.mem_filter.mpr ⟨hmP, by simpa using hmtid⟩, hmi⟩
  · intro n hn htid
    refine ⟨?_, ?_, ?_, ?_, ?_⟩
    · rw [e1, mem_filter_map_id_iff db.nodes hnd n hn]
      simp [htid]
    · intro hty
      have hty_s : n.type ≠ "seat" := by rw [hty]; decide
      have hty_p : n.type ∉ poi_types := by rw [hty]; exact gate_not_poi_type
      refine ⟨?_, ?_, ?_⟩
      · rw [e2, mem_filter_map_id_iff db.nodes hnd n hn]
        simp [htid, hty]
      · rw [e3, mem_filter_map_id_iff db.nodes hnd n hn]
        simp [htid, hty_s]
      · rw [e4, mem_filter_map_id_iff db.nodes hnd n hn]
        simp [htid, hty_p]
    · intro hty
      have hty_g : n.type ≠ "gate" := by rw [hty]; decide
      have hty_p : n.type ∉ poi_types := by rw [hty]; exact seat_not_poi_type
      refine ⟨?_, ?_, ?_⟩
      · rw [e3, mem_filter_map_id_iff db.nodes hnd n hn]
        simp [htid, hty]
      · rw [e2, mem_filter_map_id_iff db.nodes hnd n hn]
        simp [htid, hty_g]
      · rw [e4, mem_filter_map_id_iff db.nodes hnd n hn]
        simp [htid, hty_p]
    · intro hty
      have hty_g : n.type ≠ "gate" := fun h => gate_not_poi_type (h ▸ hty)
      have hty_s : n.type ≠ "seat" := fun h => seat_not_poi_type (h ▸ hty)
      refine ⟨?_, ?_, ?_⟩
      · rw [e4, mem_filter_map_id_iff db.nodes hnd n hn]
        simp [htid, hty]
      · rw [e2, mem_filter_map_id_iff db.nodes hnd n hn]
        simp [htid, hty_g]
      · rw [e3, mem_filter_map_id_iff db.nodes hnd n hn]
        simp [htid, hty_s]
    · intro hty_g hty_s hty_p
      refine ⟨?_, ?_, ?_⟩
      · rw [e2, mem_filter_map_id_iff db.nodes hnd n hn]
        simp [htid, hty_g]
      · rw [e3, mem_filter_map_id_iff db.nodes hnd n hn]
        simp [htid, hty_s]
      · rw [e4, mem_filter_map_id_iff db.nodes hnd n hn]
        simp [htid, hty_p]

/-- The single tile produced by rebuilding the scenario store. -/
def scenarioTile : Tile := (gmEx.rebuild_grid scenarioDB).1.tiles.getD 0 staleTile

theorem rebuild_category_invariant_witness :
    (∀ n ∈ scenarioDB.nodes, goodId n.id) ∧
    (scenarioDB.nodes.map Node.id).Nodup ∧
    scenarioTile ∈ (gmEx.rebuild_grid scenarioDB).1.tiles ∧
    "s1".data ∈ nodeList scenarioTile :=
  ⟨by with_unfolding_all decide, by with_unfolding_all decide,
   by with_unfolding_all decide,
   (rebuild_category_invariant gmEx scenarioDB (by with_unfolding_all decide)
       (by with_unfolding_all decide) scenarioTile
       (by with_unfolding_all decide)).1 "s1".data
     (Or.inr (Or.inl (by with_unfolding_all decide)))⟩

end MapService
